import Mathlib

/-!
Shallow embedding of the custom QScintilla lexers of `epiccoder` (file
`src/epiccoder/lexer.py`): the shared regular-expression token scanner, the
plain-text lexer `TextCustomLexer` and the production-rule lexer
`PPSCustomLexer`.

Modelling conventions:
* Buffer text and tokens are `List Char` (the ASCII fragment of Python `str`;
  the character-class predicates below are the ASCII fragments of Python's
  `\w`, `\s`, `str.isnumeric` and `str.lower`).
* Style ids are `Nat`, with the same numeric values as the Python constants.
* A `styleText` call is modelled as a pure function from the sliced range text
  and the host's answer to the preceding-byte style query to the emitted
  `(byte_length, style)` runs, paired with a `Bool` that records whether the
  Python code raises an uncaught `IndexError` during the loop (`true` = the
  call raises after emitting the runs accumulated so far).
-/

namespace EpicCoder

/-- ASCII fragment of Python's regex class `\w`: letters, digits, underscore. -/
def isWordChar (c : Char) : Bool := c.isAlphanum || c = '_'

/-- ASCII fragment of Python's regex class `\s`: space, tab, newline, carriage
return, vertical tab, form feed. -/
def isSpaceChar (c : Char) : Bool :=
  c = ' ' || c = '\t' || c = '\n' || c = '\r' || c = '\x0b' || c = '\x0c'

/-- ASCII fragment of Python's `str.isnumeric()`: nonempty and consisting
entirely of the decimal digits `'0'`-`'9'`. -/
def pyIsNumeric (s : List Char) : Bool := !s.isEmpty && s.all Char.isDigit

/-- ASCII fragment of Python's `str.lower()`: lower-case each character. -/
def pyLower (s : List Char) : List Char := s.map Char.toLower

/-- `re.findall` for the token pattern `[*]|\/\/+|\s+|\w+|\W|\s` compiled as
`token_pattern` (lexer.py lines 67 and 249): at each position, in priority
order, match a literal `*`; a run of two or more `/`; a maximal whitespace
run; a maximal word-character run; or else a single (non-word) character.
The trailing `\s` alternative of the pattern is unreachable because `\s+`
precedes it.  `fuel` bounds the recursion depth; every step consumes at least
one character, so `fuel = length` always suffices (see `findallAux_fuel`). -/
def findallAux : Nat → List Char → List (List Char)
  | 0, _ => []
  | _ + 1, [] => []
  | fuel + 1, c :: cs =>
    if c = '*' then [c] :: findallAux fuel cs
    else if c = '/' ∧ cs.head? = some '/' then
      (c :: cs.takeWhile (· == '/')) :: findallAux fuel (cs.dropWhile (· == '/'))
    else if isSpaceChar c then
      (c :: cs.takeWhile isSpaceChar) :: findallAux fuel (cs.dropWhile isSpaceChar)
    else if isWordChar c then
      (c :: cs.takeWhile isWordChar) :: findallAux fuel (cs.dropWhile isWordChar)
    else [c] :: findallAux fuel cs

/-- The scanner's partition of a text slice: `token_pattern.findall(text)`. -/
def tokenize (l : List Char) : List (List Char) := findallAux l.length l

/-- UTF-8 byte length of a token: `len(bytearray(token, "utf-8"))`. -/
def utf8Len (s : List Char) : Nat := (s.map Char.utf8Size).sum

/-- `get_tokens` (lexer.py lines 77-80 and 280-287, identical in both
lexers): each regex token paired with its UTF-8 byte length. -/
def get_tokens (text : List Char) : List (List Char × Nat) :=
  (tokenize text).map (fun t => (t, utf8Len t))

/-- The `token_list` comprehension at the top of both `styleText` bodies
(lexer.py lines 87 and 294): every token text lower-cased, lengths kept. -/
def token_list (text : List Char) : List (List Char × Nat) :=
  (get_tokens text).map (fun p => (pyLower p.1, p.2))

namespace TextLexer

/-- Style id `self.DEFAULT` of `TextCustomLexer`. -/
def DEFAULT : Nat := 0

/-- Style id `self.NUMBER` of `TextCustomLexer`. -/
def NUMBER : Nat := 1

/-- `TextCustomLexer.description` (lexer.py lines 69-75), total on integers. -/
def description (style : Int) : String :=
  if style = (DEFAULT : Nat) then "DEFAULT"
  else if style = (NUMBER : Nat) then "NUMBER"
  else ""

/-- `TextCustomLexer.styleText` (lexer.py lines 82-111) on the sliced range
text: one `(byte_length, style)` run per token, `NUMBER` for all-digit tokens
and `DEFAULT` otherwise.  The `while`/`next_tok` loop visits every token of
`token_list` once, in order. -/
def styleText (text : List Char) : List (Nat × Nat) :=
  (token_list text).map (fun p => if pyIsNumeric p.1 then (p.2, NUMBER) else (p.2, DEFAULT))

end TextLexer

namespace PPS

/-- `self.RULE_SECTIONS` (lexer.py line 131). -/
def RULE_SECTIONS : List (List Char) := ["if", "then"].map String.toList

/-- `self.COMPARISONS` (lexer.py lines 133-145). -/
def COMPARISONS : List (List Char) :=
  ["not", "equal", "greater", "least", "different", "less-than", "less_than",
   "greater-than", "greater_than", "equal-to", "equal_to"].map String.toList

/-- `self.DIRECTIVES` (lexer.py lines 146-154). -/
def DIRECTIVES : List (List Char) :=
  ["if-only-one", "if_only_one", "use-only-one", "use_only_one",
   "randomly-choose-one", "randomly_choose_one", "unique"].map String.toList

/-- `self.ARCHITECTURES` (lexer.py lines 155-172). -/
def ARCHITECTURES : List (List Char) :=
  ["goal", "step", "tag", "visual", "auditory", "tactile", "more",
   "initial-memory-contents", "initial_memory_contents", "parameters",
   "named-location", "named_location", "motor", "ocular", "manual",
   "vocal"].map String.toList

/-- `self.KEYWORDS` (lexer.py lines 173-189). -/
def KEYWORDS : List (List Char) :=
  ["add", "adddb", "del", "delete", "log", "define", "set-mode", "set_mode",
   "send-to-motor", "send_to_motor", "delay-countdown", "delay_countdown",
   "increment", "send-to-temporal", "send_to_temporal"].map String.toList

/-- Style id `self.DEFAULT`. -/
def DEFAULT : Nat := 0

/-- Style id `self.RULE_SECTION`. -/
def RULE_SECTION : Nat := 1

/-- Style id `self.COMPARISON`. -/
def COMPARISON : Nat := 2

/-- Style id `self.DIRECTIVE`. -/
def DIRECTIVE : Nat := 3

/-- Style id `self.ARCHITECTURE`. -/
def ARCHITECTURE : Nat := 4

/-- Style id `self.COMMENT`. -/
def COMMENT : Nat := 5

/-- Style id `self.NUMBER`. -/
def NUMBER : Nat := 6

/-- Style id `self.RULE_NAME`. -/
def RULE_NAME : Nat := 7

/-- Style id `self.VARIABLE`. -/
def VARIABLE : Nat := 8

/-- Style id `self.KEYWORD`. -/
def KEYWORD : Nat := 9

/-- Style id `self.PARENS`. -/
def PARENS : Nat := 10

/-- `PPSCustomLexer.description` (lexer.py lines 254-278), total on
integers. -/
def description (style : Int) : String :=
  if style = (DEFAULT : Nat) then "DEFAULT"
  else if style = (RULE_SECTION : Nat) then "RULE_SECTION"
  else if style = (COMPARISON : Nat) then "COMPARISON"
  else if style = (DIRECTIVE : Nat) then "DIRECTIVE"
  else if style = (ARCHITECTURE : Nat) then "ARCHITECTURE"
  else if style = (COMMENT : Nat) then "COMMENT"
  else if style = (NUMBER : Nat) then "NUMBER"
  else if style = (RULE_NAME : Nat) then "RULE_NAME"
  else if style = (VARIABLE : Nat) then "VARIABLE"
  else if style = (KEYWORD : Nat) then "KEYWORD"
  else if style = (PARENS : Nat) then "PARENS"
  else ""

/-- A line-terminator character, as tested by `tok[-1] in ("\n", "\r")` and
`tok[0] in ("\n", "\r")` (lexer.py line 345). -/
def isLineTerm (c : Char) : Bool := c = '\n' || c = '\r'

/-- The comment-exit test of the IN_COMMENT branch (lexer.py line 345):
`tok[-1] in ("\n", "\r") or tok[0] in ("\n", "\r")` — the token's last OR
first character is a line terminator. -/
def exitsComment (tok : List Char) : Bool :=
  tok.getLast?.any isLineTerm || tok.head?.any isLineTerm

/-- The final three `elif`/`else` arms of the contextual fallback
(lexer.py lines 371-376): variable sigil, variable continuation, default.
`last_token` is `None` or the (lower-cased) text of the previous token;
`last_token[0]` in the Python source selects that text from the
`(text, length)` tuple. -/
def contextualTail (last_token : Option (List Char)) (tok : List Char)
    (string_flag : Bool) : Nat × Bool :=
  if tok = ['?'] ∧
      (last_token = some ['?'] ∨ last_token = some [' '] ∨ last_token = some ['(']) then
    (VARIABLE, string_flag)
  else if '?' ∉ tok ∧ last_token = some ['?'] then
    (VARIABLE, string_flag)
  else (DEFAULT, string_flag)

/-- One iteration of the `while True` loop body of `PPSCustomLexer.styleText`
(lexer.py lines 332-376) for the current token `tok`: returns the emitted
style and the updated `string_flag`, or `none` when the Python code raises
`IndexError`.  `peek` is `token_list[0]` of the remaining tokens when one
exists; `peek_tok` returns the sentinel `[""]` otherwise, so `peek.getD []`
is the string `peek[0]`, and indexing `peek[0][0]` into the empty sentinel
string (lexer.py line 369) raises — modelled by the `none` arm.  Indexing
`tok[-1]`/`tok[0]` into an empty current token would equally raise, but
scanner tokens are never empty. -/
def styleToken (string_flag : Bool) (last_token : Option (List Char))
    (tok : List Char) (peek : Option (List Char)) : Option (Nat × Bool) :=
  if string_flag then
    match tok with
    | [] => none
    | _ => some (COMMENT, !exitsComment tok)
  else if tok ∈ RULE_SECTIONS then some (RULE_SECTION, string_flag)
  else if tok ∈ COMPARISONS then some (COMPARISON, string_flag)
  else if tok ∈ DIRECTIVES then some (DIRECTIVE, string_flag)
  else if tok ∈ ARCHITECTURES then some (ARCHITECTURE, string_flag)
  else if tok ∈ KEYWORDS then some (KEYWORD, string_flag)
  else if pyIsNumeric tok then some (NUMBER, string_flag)
  else if tok = ['('] ∨ tok = [')'] then some (PARENS, string_flag)
  else if tok.head? = some ';' ∨ tok.take 2 = ['/', '/'] then some (COMMENT, true)
  else if 2 < tok.length ∧ last_token = some ['('] then
    match (peek.getD []).head? with
    | none => none
    | some pc =>
      if isLineTerm pc then some (RULE_NAME, string_flag)
      else some (contextualTail last_token tok string_flag)
  else some (contextualTail last_token tok string_flag)

/-- The `while True` loop of `PPSCustomLexer.styleText` over the (lower-cased)
token list, threading `string_flag` and `last_token`.  Returns the emitted
`(byte_length, style)` runs and whether the loop raised `IndexError` (`true`:
the runs emitted before the raise are kept, the remaining tokens are never
styled). -/
def runTokens : Bool → Option (List Char) → List (List Char × Nat) → List (Nat × Nat) × Bool
  | _, _, [] => ([], false)
  | string_flag, last_token, (tok, tokLen) :: rest =>
    match styleToken string_flag last_token tok (rest.head?.map Prod.fst) with
    | none => ([], true)
    | some (sty, flag) =>
      let r := runTokens flag (some tok) rest
      ((tokLen, sty) :: r.1, r.2)

/-- The `string_flag` initialisation of `PPSCustomLexer.styleText`
(lexer.py lines 296-301): `string_flag = False`; then, when `start > 0` and
the host reports the preceding byte's style as `COMMENT`, the branch assigns
`False` again (the source assigns `False`, not `True`). -/
def initialStringFlag (start : Nat) (previous_style_nr : Nat) : Bool :=
  if 0 < start then
    (if previous_style_nr = COMMENT then false else false)
  else false

/-- `PPSCustomLexer.styleText` (lexer.py lines 289-376) on the sliced range
text `editor.text()[start:end]`, with `previous_style_nr` the host's answer to
the `SCI_GETSTYLEAT (start - 1)` query (ignored when `start = 0`, for which
the query is not made). -/
def styleText (start : Nat) (previous_style_nr : Nat) (text : List Char) :
    List (Nat × Nat) × Bool :=
  runTokens (initialStringFlag start previous_style_nr) none (token_list text)

end PPS

/-! Basic facts about the scanner and the run accounting. -/

theorem findallAux_flatten :
    ∀ (fuel : Nat) (l : List Char), l.length ≤ fuel → (findallAux fuel l).flatten = l := by
  intro fuel
  induction fuel with
  | zero =>
    intro l hl
    have hnil : l = [] := List.length_eq_zero.mp (Nat.le_zero.mp hl)
    subst hnil; rfl
  | succ n ih =>
    intro l hl
    match l with
    | [] => rfl
    | c :: cs =>
      have hcs : cs.length ≤ n := by simpa using hl
      have hdrop : ∀ p : Char → Bool, ((cs.dropWhile p).length ≤ n) :=
        fun p => le_trans (List.dropWhile_sublist p).length_le hcs
      simp only [findallAux]
      split_ifs with h1 h2 h3 h4 <;>
        simp [ih _ hcs, ih _ (hdrop _), List.takeWhile_append_dropWhile]

theorem tokenize_flatten (l : List Char) : (tokenize l).flatten = l :=
  findallAux_flatten l.length l le_rfl

theorem utf8Len_append (a b : List Char) : utf8Len (a ++ b) = utf8Len a + utf8Len b := by
  simp [utf8Len]

theorem utf8Len_flatten : ∀ L : List (List Char), utf8Len L.flatten = (L.map utf8Len).sum
  | [] => rfl
  | t :: L => by simp [List.flatten_cons, utf8Len_append, utf8Len_flatten L]

theorem token_list_map_snd (text : List Char) :
    (token_list text).map Prod.snd = (tokenize text).map utf8Len := by
  simp [token_list, get_tokens, List.map_map, Function.comp]

theorem sum_utf8_tokens (text : List Char) :
    ((tokenize text).map utf8Len).sum = utf8Len text := by
  rw [← utf8Len_flatten, tokenize_flatten]

theorem runTokens_map_fst :
    ∀ (ts : List (List Char × Nat)) (flag : Bool) (last : Option (List Char)),
      (PPS.runTokens flag last ts).2 = false →
      (PPS.runTokens flag last ts).1.map Prod.fst = ts.map Prod.snd := by
  intro ts
  induction ts with
  | nil => intro flag last _; rfl
  | cons u rest ih =>
    intro flag last h
    obtain ⟨tok, len⟩ := u
    cases hst : PPS.styleToken flag last tok (rest.head?.map Prod.fst) with
    | none => simp [PPS.runTokens, hst] at h
    | some p =>
      obtain ⟨sty, f2⟩ := p
      simp only [PPS.runTokens, hst] at h ⊢
      simp only [List.map_cons]
      rw [ih f2 (some tok) h]

theorem initialStringFlag_false (s p : Nat) : PPS.initialStringFlag s p = false := by
  unfold PPS.initialStringFlag
  split_ifs <;> rfl

/-- C1: the spec claims that when `start > 0` and the preceding byte's style is
`COMMENT`, `styleText` begins in the IN_COMMENT state.  The code instead
assigns `string_flag = False` in that branch (lexer.py line 301), so the
styler always begins in NORMAL state: restyling the tail `"xyz\n"` of a
multi-line comment with the preceding byte styled `COMMENT` yields `DEFAULT`
runs, not `COMMENT` runs. -/
theorem c1_initial_state_normal :
    PPS.initialStringFlag 9 PPS.COMMENT = false ∧
    PPS.styleText 9 PPS.COMMENT "xyz\n".toList =
      ([(3, PPS.DEFAULT), (1, PPS.DEFAULT)], false) := by
  exact ⟨rfl, by decide⟩

/-- C2: the claim says `styleText` raises no error, in particular when a token
of length > 2 preceded by `"("` is the final token of the range.  On the range
text `"(abc"` the code styles `"("` as `PARENS` and then evaluates
`peek_tok()[0][0]` with the empty-string sentinel, raising `IndexError`
(modelled by the `true` crash flag); the remaining three bytes are never
styled. -/
theorem c2_rule_name_lookahead_raises :
    PPS.styleText 0 PPS.DEFAULT "(abc".toList = ([(1, PPS.PARENS)], true) := by decide

/-- C5: the scanner's tokenization is a lossless partition — concatenating the
texts of the tokens returned by `get_tokens`, in order, reproduces the input
exactly. -/
theorem c5_lossless_partition (text : List Char) :
    ((get_tokens text).map Prod.fst).flatten = text := by
  have hid : (Prod.fst ∘ fun t : List Char => (t, utf8Len t)) = id := rfl
  have h : (get_tokens text).map Prod.fst = tokenize text := by
    rw [get_tokens, List.map_map, hid, List.map_id]
  rw [h, tokenize_flatten]

/-- C4 (amended): for every `styleText` invocation that completes without
raising, the sum of the byte lengths of the emitted runs equals the UTF-8 byte
length of the range text (and the plain-text lexer satisfies this
unconditionally, including the empty range, which emits zero runs).  The
unamended claim fails on invocations that raise, see
`c4_counterexample_crash_short`. -/
theorem c4_amended_length_conservation :
    (∀ (start prev : Nat) (text : List Char),
        (PPS.styleText start prev text).2 = false →
        ((PPS.styleText start prev text).1.map Prod.fst).sum = utf8Len text) ∧
    (∀ text : List Char, ((TextLexer.styleText text).map Prod.fst).sum = utf8Len text) := by
  constructor
  · intro start prev text h
    unfold PPS.styleText at h ⊢
    rw [runTokens_map_fst _ _ _ h, token_list_map_snd, sum_utf8_tokens]
  · intro text
    have h : (TextLexer.styleText text).map Prod.fst = (token_list text).map Prod.snd := by
      unfold TextLexer.styleText
      rw [List.map_map]
      refine List.map_congr_left ?_
      intro p _
      by_cases hn : pyIsNumeric p.1 = true <;> simp [hn]
    rw [h, token_list_map_snd, sum_utf8_tokens]

/-- C4 counterexample: on the range text `"(abc"` (4 bytes) the rule-lexer
call raises after emitting a single 1-byte run, so the emitted runs cover 1
byte, not `end - start = 4`. -/
theorem c4_counterexample_crash_short :
    (PPS.styleText 0 PPS.DEFAULT "(abc".toList).2 = true ∧
    ((PPS.styleText 0 PPS.DEFAULT "(abc".toList).1.map Prod.fst).sum = 1 ∧
    utf8Len "(abc".toList = 4 := by decide

/-- Witness for `c4_amended_length_conservation` at concrete inputs. -/
theorem c4_amended_witness :
    ((PPS.styleText 0 PPS.DEFAULT "(add 5)".toList).1.map Prod.fst).sum =
        utf8Len "(add 5)".toList ∧
    ((TextLexer.styleText "ab 12".toList).map Prod.fst).sum = utf8Len "ab 12".toList :=
  ⟨c4_amended_length_conservation.1 0 PPS.DEFAULT _ (by decide),
   c4_amended_length_conservation.2 _⟩

/-- C9: `styleText` is deterministic — its output is a function of the range
text and the answer to the preceding-byte style query alone.  The theorem is
in fact stronger: the output does not depend on the query answer or the start
offset at all (a consequence of `initialStringFlag` being constantly
`false`). -/
theorem c9_deterministic (text : List Char) (s₁ s₂ p₁ p₂ : Nat) :
    PPS.styleText s₁ p₁ text = PPS.styleText s₂ p₂ text := by
  unfold PPS.styleText
  rw [initialStringFlag_false, initialStringFlag_false]

/-! Character-level facts about ASCII lower-casing, used to relate the
lower-cased tokens the styler inspects to the raw scanner tokens. -/

theorem char_ofNat_toNat (n : Nat) (h : n < 55296) : (Char.ofNat n).toNat = n := by
  unfold Char.ofNat
  rw [dif_pos (Or.inl h)]
  rfl

theorem toLower_shift (c : Char) :
    Char.toLower c = c ∨
      (65 ≤ c.toNat ∧ c.toNat ≤ 90 ∧ (Char.toLower c).toNat = c.toNat + 32) := by
  unfold Char.toLower
  by_cases h : c.toNat ≥ 65 ∧ c.toNat ≤ 90
  · refine Or.inr ⟨h.1, h.2, ?_⟩
    rw [if_pos h]
    exact char_ofNat_toNat _ (by omega)
  · rw [if_neg h]
    exact Or.inl rfl

theorem uint32_le_iff_le (a b : UInt32) : a ≤ b ↔ a.toNat ≤ b.toNat := by
  rw [UInt32.le_def, BitVec.le_def]
  rfl

theorem char_isDigit_iff (c : Char) : c.isDigit = true ↔ 48 ≤ c.toNat ∧ c.toNat ≤ 57 := by
  simp only [Char.isDigit, ge_iff_le, Bool.and_eq_true, decide_eq_true_eq, uint32_le_iff_le]
  exact Iff.rfl

theorem toLower_isDigit (c : Char) : (Char.toLower c).isDigit = c.isDigit := by
  rcases toLower_shift c with h | ⟨h1, h2, h3⟩
  · rw [h]
  · have hc : c.isDigit = false := by
      cases hx : c.isDigit
      · rfl
      · exact absurd ((char_isDigit_iff c).mp hx) (by omega)
    have hl : (Char.toLower c).isDigit = false := by
      cases hx : (Char.toLower c).isDigit
      · rfl
      · exact absurd ((char_isDigit_iff _).mp hx) (by omega)
    rw [hc, hl]

theorem pyIsNumeric_pyLower (s : List Char) : pyIsNumeric (pyLower s) = pyIsNumeric s := by
  cases s with
  | nil => rfl
  | cons c cs =>
    simp only [pyIsNumeric, pyLower, List.map_cons, List.isEmpty_cons, List.all_cons,
      List.all_map, toLower_isDigit]
    rw [show Char.isDigit ∘ Char.toLower = Char.isDigit from funext toLower_isDigit]

/-- The five keyword tables of the rule lexer, concatenated. -/
def allKeywordTokens : List (List Char) :=
  PPS.RULE_SECTIONS ++ PPS.COMPARISONS ++ PPS.DIRECTIVES ++ PPS.ARCHITECTURES ++ PPS.KEYWORDS

theorem allKeywordTokens_not_numeric :
    allKeywordTokens.all (fun k => !pyIsNumeric k) = true := by decide

theorem allKeywordTokens_head_alpha :
    allKeywordTokens.all (fun k => k.head?.any Char.isAlpha) = true := by decide

theorem not_keyword_of_numeric (t : List Char) (hn : pyIsNumeric t = true) :
    t ∉ allKeywordTokens := by
  intro hm
  have h := List.all_eq_true.mp allKeywordTokens_not_numeric t hm
  rw [hn] at h
  simp at h

theorem contextualTail_map_fst_ne_number (l : Option (List Char)) (t : List Char) (f : Bool) :
    (some (PPS.contextualTail l t f)).map Prod.fst ≠ some PPS.NUMBER := by
  unfold PPS.contextualTail
  split_ifs <;> simp [PPS.VARIABLE, PPS.DEFAULT, PPS.NUMBER]

/-- In NORMAL state, the styler emits `NUMBER` exactly for tokens whose text
consists entirely of decimal digits. -/
theorem styleToken_number_iff (last : Option (List Char)) (t : List Char)
    (peek : Option (List Char)) :
    (PPS.styleToken false last t peek).map Prod.fst = some PPS.NUMBER ↔
      pyIsNumeric t = true := by
  by_cases hn : pyIsNumeric t = true
  · have hall := not_keyword_of_numeric t hn
    have h1 : t ∉ PPS.RULE_SECTIONS := fun hm =>
      hall (by unfold allKeywordTokens; simp [hm])
    have h2 : t ∉ PPS.COMPARISONS := fun hm =>
      hall (by unfold allKeywordTokens; simp [hm])
    have h3 : t ∉ PPS.DIRECTIVES := fun hm =>
      hall (by unfold allKeywordTokens; simp [hm])
    have h4 : t ∉ PPS.ARCHITECTURES := fun hm =>
      hall (by unfold allKeywordTokens; simp [hm])
    have h5 : t ∉ PPS.KEYWORDS := fun hm =>
      hall (by unfold allKeywordTokens; simp [hm])
    unfold PPS.styleToken
    rw [if_neg (by simp), if_neg h1, if_neg h2, if_neg h3, if_neg h4, if_neg h5, if_pos hn]
    simpa using hn
  · unfold PPS.styleToken
    rw [if_neg (by decide : ¬(false = true))]
    by_cases ha : t ∈ PPS.RULE_SECTIONS
    · rw [if_pos ha]
      exact iff_of_false (by decide) hn
    rw [if_neg ha]
    by_cases hb : t ∈ PPS.COMPARISONS
    · rw [if_pos hb]
      exact iff_of_false (by decide) hn
    rw [if_neg hb]
    by_cases hc : t ∈ PPS.DIRECTIVES
    · rw [if_pos hc]
      exact iff_of_false (by decide) hn
    rw [if_neg hc]
    by_cases hd : t ∈ PPS.ARCHITECTURES
    · rw [if_pos hd]
      exact iff_of_false (by decide) hn
    rw [if_neg hd]
    by_cases he : t ∈ PPS.KEYWORDS
    · rw [if_pos he]
      exact iff_of_false (by decide) hn
    rw [if_neg he, if_neg hn]
    by_cases hf : t = ['('] ∨ t = [')']
    · rw [if_pos hf]
      exact iff_of_false (by decide) hn
    rw [if_neg hf]
    by_cases hg : t.head? = some ';' ∨ t.take 2 = ['/', '/']
    · rw [if_pos hg]
      exact iff_of_false (by decide) hn
    rw [if_neg hg]
    by_cases hh : 2 < t.length ∧ last = some ['(']
    · rw [if_pos hh]
      cases hpk : (peek.getD []).head? with
      | none => simp [hpk, hn]
      | some pc =>
        simp only [hpk]
        by_cases hterm : PPS.isLineTerm pc = true
        · rw [if_pos hterm]
          exact iff_of_false (by decide) hn
        · rw [if_neg hterm]
          exact iff_of_false (contextualTail_map_fst_ne_number _ _ _) hn
    · rw [if_neg hh]
      exact iff_of_false (contextualTail_map_fst_ne_number _ _ _) hn

/-- C7: in NORMAL state (and after the keyword rules have had their chance), a
token is styled `NUMBER` if and only if its raw text consists entirely of
decimal digits; this holds for the rule lexer and for the plain-text lexer,
whose only non-default category is `NUMBER`.  The token is quantified as the
`i`-th raw scanner token of the range (`get_tokens`); the styler inspects its
lower-cased form, and ASCII lower-casing neither creates nor destroys
digit-only tokens (`pyIsNumeric_pyLower`). -/
theorem c7_number_iff (text : List Char) (i : Nat) (tok : List Char) (len : Nat)
    (h : (get_tokens text)[i]? = some (tok, len)) :
    ((TextLexer.styleText text)[i]? = some (len, TextLexer.NUMBER) ↔
      pyIsNumeric tok = true) ∧
    ∀ (last peek : Option (List Char)),
      ((PPS.styleToken false last (pyLower tok) peek).map Prod.fst = some PPS.NUMBER ↔
        pyIsNumeric tok = true) := by
  constructor
  · have h2 : (token_list text)[i]? = some (pyLower tok, len) := by
      unfold token_list
      rw [List.getElem?_map, h]
      rfl
    unfold TextLexer.styleText
    rw [List.getElem?_map, h2]
    by_cases hn : pyIsNumeric tok = true
    · have hl : pyIsNumeric (pyLower tok) = true := by rw [pyIsNumeric_pyLower, hn]
      simp [hl, hn]
    · have hl : pyIsNumeric (pyLower tok) = false := by
        rw [pyIsNumeric_pyLower]
        exact Bool.not_eq_true _ |>.mp hn
      simp [hl, hn, TextLexer.DEFAULT, TextLexer.NUMBER]
  · intro last peek
    rw [styleToken_number_iff, pyIsNumeric_pyLower]

/-- Witness for `c7_number_iff`: in `"12 a"`, the first token `"12"` is styled
`NUMBER` by the plain-text lexer and classified `NUMBER` by the rule styler. -/
theorem c7_number_iff_witness :
    (TextLexer.styleText "12 a".toList)[0]? = some (2, TextLexer.NUMBER) ∧
    (PPS.styleToken false none (pyLower ['1', '2']) none).map Prod.fst =
      some PPS.NUMBER :=
  ⟨(c7_number_iff "12 a".toList 0 ['1', '2'] 2 (by decide)).1.mpr (by decide),
   ((c7_number_iff "12 a".toList 0 ['1', '2'] 2 (by decide)).2 none none).mpr (by decide)⟩

theorem pps_description_out (s : Int) (h : ¬(0 ≤ s ∧ s ≤ 10)) : PPS.description s = "" := by
  unfold PPS.description PPS.DEFAULT PPS.RULE_SECTION PPS.COMPARISON PPS.DIRECTIVE
    PPS.ARCHITECTURE PPS.COMMENT PPS.NUMBER PPS.RULE_NAME PPS.VARIABLE PPS.KEYWORD PPS.PARENS
  rw [if_neg (by omega : ¬ s = ((0 : Nat) : Int)), if_neg (by omega : ¬ s = ((1 : Nat) : Int)),
    if_neg (by omega : ¬ s = ((2 : Nat) : Int)), if_neg (by omega : ¬ s = ((3 : Nat) : Int)),
    if_neg (by omega : ¬ s = ((4 : Nat) : Int)), if_neg (by omega : ¬ s = ((5 : Nat) : Int)),
    if_neg (by omega : ¬ s = ((6 : Nat) : Int)), if_neg (by omega : ¬ s = ((7 : Nat) : Int)),
    if_neg (by omega : ¬ s = ((8 : Nat) : Int)), if_neg (by omega : ¬ s = ((9 : Nat) : Int)),
    if_neg (by omega : ¬ s = ((10 : Nat) : Int))]

theorem pps_description_in (n : Nat) (h : n ≤ 10) : PPS.description n ≠ "" := by
  interval_cases n <;> decide

theorem text_description_out (s : Int) (h : ¬(0 ≤ s ∧ s ≤ 1)) :
    TextLexer.description s = "" := by
  unfold TextLexer.description TextLexer.DEFAULT TextLexer.NUMBER
  rw [if_neg (by omega : ¬ s = ((0 : Nat) : Int)), if_neg (by omega : ¬ s = ((1 : Nat) : Int))]

theorem text_description_in (n : Nat) (h : n ≤ 1) : TextLexer.description n ≠ "" := by
  interval_cases n <;> decide

/-- C10: `description` is total on integers for both lexers; on each declared
style id it returns that category's unique non-empty upper-case name, and on
every other integer (negative or past the largest id) it returns `""`. -/
theorem c10_description_registry :
    (∀ s : Int, PPS.description s ≠ "" ↔ 0 ≤ s ∧ s ≤ 10) ∧
    ((List.range 11).map (fun n => PPS.description n)).Nodup ∧
    ((List.range 11).map (fun n => PPS.description n)).all
      (fun nm => nm.toList.all (fun c => c.isUpper || c = '_')) = true ∧
    PPS.description (PPS.DEFAULT : Nat) = "DEFAULT" ∧
    PPS.description (PPS.RULE_SECTION : Nat) = "RULE_SECTION" ∧
    PPS.description (PPS.COMPARISON : Nat) = "COMPARISON" ∧
    PPS.description (PPS.DIRECTIVE : Nat) = "DIRECTIVE" ∧
    PPS.description (PPS.ARCHITECTURE : Nat) = "ARCHITECTURE" ∧
    PPS.description (PPS.COMMENT : Nat) = "COMMENT" ∧
    PPS.description (PPS.NUMBER : Nat) = "NUMBER" ∧
    PPS.description (PPS.RULE_NAME : Nat) = "RULE_NAME" ∧
    PPS.description (PPS.VARIABLE : Nat) = "VARIABLE" ∧
    PPS.description (PPS.KEYWORD : Nat) = "KEYWORD" ∧
    PPS.description (PPS.PARENS : Nat) = "PARENS" ∧
    (∀ s : Int, TextLexer.description s ≠ "" ↔ 0 ≤ s ∧ s ≤ 1) ∧
    ((List.range 2).map (fun n => TextLexer.description n)).Nodup ∧
    TextLexer.description (TextLexer.DEFAULT : Nat) = "DEFAULT" ∧
    TextLexer.description (TextLexer.NUMBER : Nat) = "NUMBER" := by
  refine ⟨?_, by decide, by decide, by decide, by decide, by decide, by decide, by decide,
    by decide, by decide, by decide, by decide, by decide, by decide, ?_, by decide,
    by decide, by decide⟩
  · intro s
    constructor
    · intro hne
      by_contra hc
      exact hne (pps_description_out s hc)
    · rintro ⟨h1, h2⟩
      have hn : s = ((s.toNat : Nat) : Int) := by omega
      rw [hn]
      exact pps_description_in s.toNat (by omega)
  · intro s
    constructor
    · intro hne
      by_contra hc
      exact hne (text_description_out s hc)
    · rintro ⟨h1, h2⟩
      have hn : s = ((s.toNat : Nat) : Int) := by omega
      rw [hn]
      exact text_description_in s.toNat (by omega)

/-! The IN_COMMENT state: behaviour of the styler while `string_flag` is set. -/

theorem styleToken_in_comment (last : Option (List Char)) (tok : List Char)
    (peek : Option (List Char)) (h : tok ≠ []) :
    PPS.styleToken true last tok peek = some (PPS.COMMENT, !PPS.exitsComment tok) := by
  cases tok with
  | nil => exact absurd rfl h
  | cons c cs => rfl

theorem exitsComment_false_of_no_term (us : List Char)
    (h : ∀ c ∈ us, PPS.isLineTerm c = false) : PPS.exitsComment us = false := by
  unfold PPS.exitsComment
  have h1 : us.getLast?.any PPS.isLineTerm = false := by
    cases hgl : us.getLast? with
    | none => rfl
    | some c =>
      simpa using h c (List.mem_of_mem_getLast? (Option.mem_def.mpr hgl))
  have h2 : us.head?.any PPS.isLineTerm = false := by
    cases hhd : us.head? with
    | none => rfl
    | some c =>
      simpa using h c (List.mem_of_mem_head? (Option.mem_def.mpr hhd))
  rw [h1, h2]
  rfl

/-- While the comment flag is set, every token whose text contains no line
terminator is styled `COMMENT` and leaves the flag set. -/
theorem runTokens_comment_run :
    ∀ (rest : List (List Char × Nat)) (last : Option (List Char)),
      (∀ u ∈ rest, u.1 ≠ [] ∧ ∀ c ∈ u.1, PPS.isLineTerm c = false) →
      PPS.runTokens true last rest = (rest.map (fun u => (u.2, PPS.COMMENT)), false) := by
  intro rest
  induction rest with
  | nil => intro last _; rfl
  | cons u rest ih =>
    intro last h
    obtain ⟨us, un⟩ := u
    have hu := h (us, un) (List.mem_cons_self _ _)
    have hex : PPS.exitsComment us = false := exitsComment_false_of_no_term us hu.2
    have hst := styleToken_in_comment last us (rest.head?.map Prod.fst) hu.1
    rw [hex, Bool.not_false] at hst
    simp only [PPS.runTokens, hst]
    rw [ih (some us) (fun v hv => h v (List.mem_cons_of_mem _ hv))]
    simp

/-- C6 (amended): while in the IN_COMMENT state every token is styled
`COMMENT` unconditionally; the state returns to NORMAL exactly on the first
token whose text begins OR ends with a line-terminator character (the code
also tests the token's last character, `tok[-1]`, lexer.py line 345).  The
exit token itself is still styled `COMMENT`, and NORMAL classification (with
the exit token as the remembered previous token) resumes on the following
tokens. -/
theorem c6_amended_comment_exit :
    ∀ (pre : List (List Char × Nat)) (t : List Char × Nat) (post : List (List Char × Nat))
      (last : Option (List Char)),
      (∀ u ∈ pre, u.1 ≠ [] ∧ PPS.exitsComment u.1 = false) →
      t.1 ≠ [] → PPS.exitsComment t.1 = true →
      PPS.runTokens true last (pre ++ t :: post) =
        ((pre ++ [t]).map (fun u => (u.2, PPS.COMMENT)) ++
            (PPS.runTokens false (some t.1) post).1,
          (PPS.runTokens false (some t.1) post).2) := by
  intro pre
  induction pre with
  | nil =>
    intro t post last _ ht hex
    obtain ⟨ts, tn⟩ := t
    have hst := styleToken_in_comment last ts (post.head?.map Prod.fst) ht
    rw [hex, Bool.not_true] at hst
    simp only [List.nil_append, PPS.runTokens, hst]
    simp
  | cons u pre ih =>
    intro t post last hpre ht hex
    obtain ⟨us, un⟩ := u
    have hu := hpre (us, un) (List.mem_cons_self _ _)
    have hst := styleToken_in_comment last us ((pre ++ t :: post).head?.map Prod.fst) hu.1
    rw [hu.2, Bool.not_false] at hst
    rw [List.cons_append]
    simp only [PPS.runTokens, hst]
    rw [ih t post (some us) (fun v hv => hpre v (List.mem_cons_of_mem _ hv)) ht hex]
    simp

/-- C6 counterexample: in `";a \nb"` the whitespace token `" \n"` merely ends
with (does not begin with) a line terminator, so per the claim the comment
state should persist and `"b"` should be styled `COMMENT`; the code exits the
state on `tok[-1]` and styles `"b"` `DEFAULT`. -/
theorem c6_counterexample_exit_on_last_char :
    tokenize ";a \nb".toList = [[';'], ['a'], [' ', '\n'], ['b']] ∧
    [' ', '\n'].head? = some ' ' ∧
    PPS.isLineTerm ' ' = false ∧
    PPS.styleText 0 PPS.DEFAULT ";a \nb".toList =
      ([(1, PPS.COMMENT), (1, PPS.COMMENT), (2, PPS.COMMENT), (1, PPS.DEFAULT)], false) ∧
    PPS.DEFAULT ≠ PPS.COMMENT := by decide

/-- Witness for `c6_amended_comment_exit` on a concrete comment run. -/
theorem c6_amended_witness :
    PPS.runTokens true none ([([';'], 1), (['a'], 1)] ++ ([' ', '\n'], 2) :: [(['b'], 1)]) =
      (([([';'], 1), (['a'], 1)] ++ [([' ', '\n'], 2)]).map
          (fun u : List Char × Nat => (u.2, PPS.COMMENT)) ++
          (PPS.runTokens false (some [' ', '\n']) [(['b'], 1)]).1,
        (PPS.runTokens false (some [' ', '\n']) [(['b'], 1)]).2) :=
  c6_amended_comment_exit [([';'], 1), (['a'], 1)] ([' ', '\n'], 2) [(['b'], 1)] none
    (by decide) (by decide) (by decide)

/-! Comment containment: a comment-lead token suppresses all later rules. -/

theorem styleToken_comment_start (last : Option (List Char)) (t : List Char)
    (peek : Option (List Char))
    (hstart : t.head? = some ';' ∨ t.take 2 = ['/', '/']) :
    PPS.styleToken false last t peek = some (PPS.COMMENT, true) := by
  obtain ⟨c, cs, rfl⟩ : ∃ c cs, t = c :: cs := by
    cases t with
    | nil => rcases hstart with h | h <;> simp at h
    | cons c cs => exact ⟨c, cs, rfl⟩
  have hc : c = ';' ∨ c = '/' := by
    rcases hstart with h | h
    · left; simpa using h
    · right
      rw [List.take_succ_cons] at h
      injection h with h1 _
  have hkw : c :: cs ∉ allKeywordTokens := by
    intro hm
    have hal := List.all_eq_true.mp allKeywordTokens_head_alpha _ hm
    rcases hc with rfl | rfl
    · rw [show ((';' :: cs).head?.any Char.isAlpha) = false from rfl] at hal
      exact Bool.false_ne_true hal
    · rw [show (('/' :: cs).head?.any Char.isAlpha) = false from rfl] at hal
      exact Bool.false_ne_true hal
  have h1 : c :: cs ∉ PPS.RULE_SECTIONS := fun hm => hkw (by unfold allKeywordTokens; simp [hm])
  have h2 : c :: cs ∉ PPS.COMPARISONS := fun hm => hkw (by unfold allKeywordTokens; simp [hm])
  have h3 : c :: cs ∉ PPS.DIRECTIVES := fun hm => hkw (by unfold allKeywordTokens; simp [hm])
  have h4 : c :: cs ∉ PPS.ARCHITECTURES := fun hm => hkw (by unfold allKeywordTokens; simp [hm])
  have h5 : c :: cs ∉ PPS.KEYWORDS := fun hm => hkw (by unfold allKeywordTokens; simp [hm])
  have hnum : ¬(pyIsNumeric (c :: cs) = true) := by
    intro hx
    have hcd : c.isDigit = true := by
      have hall := (Bool.and_eq_true _ _).mp hx |>.2
      rw [List.all_cons] at hall
      exact ((Bool.and_eq_true _ _).mp hall).1
    rcases hc with rfl | rfl <;> exact absurd hcd (by decide)
  have hpar : ¬(c :: cs = ['('] ∨ c :: cs = [')']) := by
    rintro (h | h) <;> rcases hc with rfl | rfl <;>
      (injection h with h1 _; exact absurd h1 (by decide))
  unfold PPS.styleToken
  rw [if_neg (by decide : ¬(false = true)), if_neg h1, if_neg h2, if_neg h3, if_neg h4,
    if_neg h5, if_neg hnum, if_neg hpar, if_pos hstart]

/-- C8: a token that starts a comment (text beginning with `;` or `//`),
followed within the range only by tokens containing no line terminator, makes
that token and every subsequent token of the range styled `COMMENT` — the
keyword, number, parenthesis and contextual rules are all suppressed — from
any styler state.  (Scanner tokens are nonempty and a comment-lead token
contains no line terminator; both facts are hypotheses here and hold for every
`token_list` entry.) -/
theorem c8_comment_containment (flag : Bool) (last : Option (List Char))
    (t : List Char × Nat) (rest : List (List Char × Nat))
    (hstart : t.1.head? = some ';' ∨ t.1.take 2 = ['/', '/'])
    (hterm : ∀ c ∈ t.1, PPS.isLineTerm c = false)
    (hrest : ∀ u ∈ rest, u.1 ≠ [] ∧ ∀ c ∈ u.1, PPS.isLineTerm c = false) :
    PPS.runTokens flag last (t :: rest) =
      ((t :: rest).map (fun u => (u.2, PPS.COMMENT)), false) := by
  obtain ⟨ts, tn⟩ := t
  have hne : ts ≠ [] := by
    rintro rfl
    rcases hstart with h | h <;> simp at h
  cases flag with
  | true =>
    have hall : ∀ u ∈ ((ts, tn) :: rest), u.1 ≠ [] ∧ ∀ c ∈ u.1, PPS.isLineTerm c = false := by
      intro u hu
      rcases List.mem_cons.mp hu with h | h
      · rw [h]
        exact ⟨hne, hterm⟩
      · exact hrest u h
    exact runTokens_comment_run _ last hall
  | false =>
    have hst := styleToken_comment_start last ts (rest.head?.map Prod.fst) hstart
    simp only [PPS.runTokens, hst]
    rw [runTokens_comment_run rest (some ts) hrest]
    simp

/-! Composition of restyle calls (state reconstruction at a split point). -/

theorem contextualTail_snd (l : Option (List Char)) (t : List Char) (f : Bool) :
    (PPS.contextualTail l t f).2 = f := by
  unfold PPS.contextualTail
  split_ifs <;> rfl

/-- The peek token matters only when the rule-name heuristic's length and
lookback conditions hold; for tokens of length at most 2 it is never
consulted. -/
theorem styleToken_peek_irrel (flag : Bool) (last : Option (List Char)) (t : List Char)
    (p₁ p₂ : Option (List Char)) (h : ¬ 2 < t.length) :
    PPS.styleToken flag last t p₁ = PPS.styleToken flag last t p₂ := by
  unfold PPS.styleToken
  have hcond : ¬(2 < t.length ∧ last = some ['(']) := fun hc => h hc.1
  rw [if_neg hcond, if_neg hcond]

/-- The previous token influences a styling step only through the three
membership tests of the contextual rules. -/
theorem styleToken_last_congr (flag : Bool) (t : List Char) (p : Option (List Char))
    (l₁ l₂ : Option (List Char))
    (h1 : (l₁ = some ['(']) ↔ (l₂ = some ['(']))
    (h2 : (l₁ = some ['?']) ↔ (l₂ = some ['?']))
    (h3 : (l₁ = some [' ']) ↔ (l₂ = some [' '])) :
    PPS.styleToken flag l₁ t p = PPS.styleToken flag l₂ t p := by
  unfold PPS.styleToken PPS.contextualTail
  simp only [h1, h2, h3]

theorem runTokens_start_congr (ys : List (List Char × Nat)) (l₁ l₂ : Option (List Char))
    (h1 : (l₁ = some ['(']) ↔ (l₂ = some ['(']))
    (h2 : (l₁ = some ['?']) ↔ (l₂ = some ['?']))
    (h3 : (l₁ = some [' ']) ↔ (l₂ = some [' '])) :
    PPS.runTokens false l₁ ys = PPS.runTokens false l₂ ys := by
  cases ys with
  | nil => rfl
  | cons u rest =>
    obtain ⟨us, un⟩ := u
    simp only [PPS.runTokens]
    rw [styleToken_last_congr false us (rest.head?.map Prod.fst) l₁ l₂ h1 h2 h3]

/-- Styling a line-terminator token (`"\n"`, `"\r"` or `"\r\n"`) always
succeeds and always leaves the comment flag off. -/
theorem styleToken_lineTerm_step (flag : Bool) (last : Option (List Char))
    (p : Option (List Char)) (t : List Char)
    (ht : t = ['\n'] ∨ t = ['\r'] ∨ t = ['\r', '\n']) :
    ∃ q : Nat × Bool, PPS.styleToken flag last t p = some q ∧ q.2 = false := by
  rcases ht with rfl | rfl | rfl <;> cases flag
  · exact ⟨PPS.contextualTail last ['\n'] false, rfl, contextualTail_snd _ _ _⟩
  · refine ⟨(PPS.COMMENT, false), ?_, rfl⟩
    rw [styleToken_in_comment _ _ _ (by decide)]
    rfl
  · exact ⟨PPS.contextualTail last ['\r'] false, rfl, contextualTail_snd _ _ _⟩
  · refine ⟨(PPS.COMMENT, false), ?_, rfl⟩
    rw [styleToken_in_comment _ _ _ (by decide)]
    rfl
  · exact ⟨PPS.contextualTail last ['\r', '\n'] false, rfl, contextualTail_snd _ _ _⟩
  · refine ⟨(PPS.COMMENT, false), ?_, rfl⟩
    rw [styleToken_in_comment _ _ _ (by decide)]
    rfl

/-- Splitting a token sequence just after a line-terminator token: the run on
the whole sequence equals the run on the prefix (terminator included) followed
by a fresh run on the suffix, provided the prefix run does not raise. -/
theorem runTokens_split (tt : List Char) (tl : Nat)
    (ht : tt = ['\n'] ∨ tt = ['\r'] ∨ tt = ['\r', '\n']) :
    ∀ (xs : List (List Char × Nat)) (flag : Bool) (last : Option (List Char))
      (ys : List (List Char × Nat)),
      (PPS.runTokens flag last (xs ++ [(tt, tl)])).2 = false →
      PPS.runTokens flag last (xs ++ (tt, tl) :: ys) =
        ((PPS.runTokens flag last (xs ++ [(tt, tl)])).1 ++ (PPS.runTokens false none ys).1,
          (PPS.runTokens false none ys).2) := by
  intro xs
  induction xs with
  | nil =>
    intro flag last ys hok
    have hlen : ¬ 2 < tt.length := by rcases ht with rfl | rfl | rfl <;> decide
    obtain ⟨q, hq, hq2⟩ := styleToken_lineTerm_step flag last none tt ht
    obtain ⟨sty, f⟩ := q
    simp only at hq2
    subst hq2
    have hq1 : PPS.styleToken flag last tt (ys.head?.map Prod.fst) = some (sty, false) := by
      rw [styleToken_peek_irrel flag last tt _ none hlen, hq]
    have hsc : PPS.runTokens false (some tt) ys = PPS.runTokens false none ys := by
      refine runTokens_start_congr ys (some tt) none ?_ ?_ ?_ <;>
        (rcases ht with rfl | rfl | rfl <;> exact iff_of_false (by decide) (by decide))
    simp [PPS.runTokens, hq1, hq, hsc]
  | cons x xs ih =>
    intro flag last ys hok
    obtain ⟨xts, xtl⟩ := x
    have hhead : ((xs ++ (tt, tl) :: ys).head?.map Prod.fst) =
        ((xs ++ [(tt, tl)]).head?.map Prod.fst) := by
      cases xs <;> rfl
    rw [List.cons_append] at hok
    rw [List.cons_append, List.cons_append]
    cases hst : PPS.styleToken flag last xts ((xs ++ [(tt, tl)]).head?.map Prod.fst) with
    | none =>
      simp only [PPS.runTokens, hst] at hok
      simp at hok
    | some q =>
      obtain ⟨sty, f2⟩ := q
      simp only [PPS.runTokens, hst] at hok
      simp only [PPS.runTokens, hhead, hst]
      rw [ih f2 (some xts) ys hok]
      simp

theorem token_list_append (s₁ s₂ : List Char)
    (h : tokenize (s₁ ++ s₂) = tokenize s₁ ++ tokenize s₂) :
    token_list (s₁ ++ s₂) = token_list s₁ ++ token_list s₂ := by
  unfold token_list get_tokens
  rw [h, List.map_append, List.map_append]

/-- C3 (amended): styling `[0, N)` in one call agrees with styling `[0, k)`
then `[k, N)` when the split point `k` is the token boundary immediately after
a line-terminator token (`"\n"`, `"\r"` or `"\r\n"`) and the first call does
not raise; the preceding-byte style query may be answered arbitrarily (the
code ignores it).  For general token-boundary splits the two stylings can
differ (see the counterexample): the comment flag is never reconstructed from
the query and the previous/next-token context of the contextual rules does not
cross call boundaries. -/
theorem c3_amended_line_boundary
    (s₁ s₂ : List Char) (start₁ start₂ prev₁ prev₂ : Nat)
    (ts : List (List Char)) (t : List Char)
    (hsplit : tokenize (s₁ ++ s₂) = tokenize s₁ ++ tokenize s₂)
    (hlast : tokenize s₁ = ts ++ [t])
    (ht : t = ['\n'] ∨ t = ['\r'] ∨ t = ['\r', '\n'])
    (hok : (PPS.styleText start₁ prev₁ s₁).2 = false) :
    PPS.styleText start₁ prev₁ (s₁ ++ s₂) =
      ((PPS.styleText start₁ prev₁ s₁).1 ++ (PPS.styleText start₂ prev₂ s₂).1,
        (PPS.styleText start₂ prev₂ s₂).2) := by
  unfold PPS.styleText at hok ⊢
  simp only [initialStringFlag_false] at hok ⊢
  rw [token_list_append s₁ s₂ hsplit]
  obtain ⟨B, hB⟩ : ∃ B, token_list s₁ = B ++ [(pyLower t, utf8Len t)] := by
    refine ⟨(ts.map (fun u => (u, utf8Len u))).map (fun p => (pyLower p.1, p.2)), ?_⟩
    unfold token_list get_tokens
    rw [hlast, List.map_append, List.map_append]
    rfl
  have htlow : pyLower t = ['\n'] ∨ pyLower t = ['\r'] ∨ pyLower t = ['\r', '\n'] := by
    rcases ht with rfl | rfl | rfl
    · exact Or.inl rfl
    · exact Or.inr (Or.inl rfl)
    · exact Or.inr (Or.inr rfl)
  rw [hB] at hok ⊢
  rw [List.append_assoc, List.singleton_append]
  exact runTokens_split (pyLower t) (utf8Len t) htlow B false none (token_list s₂) hok

/-- C3 counterexample: `"(?x"` split at the token boundary `k = 1` (after
`"("`), with the second call's preceding-byte query answered `PARENS` — the
style the first call assigned to byte 0.  The whole-range call styles `"?"`
`VARIABLE` (its remembered previous token is `"("`), but the second call has
no previous token and styles `"?"` `DEFAULT`. -/
theorem c3_counterexample_context_lost :
    PPS.styleText 0 PPS.DEFAULT "(?x".toList =
      ([(1, PPS.PARENS), (1, PPS.VARIABLE), (1, PPS.VARIABLE)], false) ∧
    PPS.styleText 0 PPS.DEFAULT "(".toList = ([(1, PPS.PARENS)], false) ∧
    PPS.styleText 1 PPS.PARENS "?x".toList = ([(1, PPS.DEFAULT), (1, PPS.VARIABLE)], false) ∧
    tokenize "(?x".toList = tokenize "(".toList ++ tokenize "?x".toList ∧
    ((1, PPS.VARIABLE) : Nat × Nat) ≠ (1, PPS.DEFAULT) := by decide

/-- Witness for `c3_amended_line_boundary`: `"; c\n"` ++ `"x"`, split at the
line boundary after the `"\n"` token. -/
theorem c3_amended_witness :
    PPS.styleText 0 PPS.DEFAULT ("; c\n".toList ++ "x".toList) =
      ((PPS.styleText 0 PPS.DEFAULT "; c\n".toList).1 ++
          (PPS.styleText 4 PPS.COMMENT "x".toList).1,
        (PPS.styleText 4 PPS.COMMENT "x".toList).2) :=
  c3_amended_line_boundary "; c\n".toList "x".toList 0 4 PPS.DEFAULT PPS.COMMENT
    [[';'], [' '], ['c']] ['\n'] (by decide) (by decide) (Or.inl rfl) (by decide)

/-- Witness for `c8_comment_containment`: the range `"; a"`, tokenized as
`";"`, `" "`, `"a"`, is styled entirely `COMMENT`. -/
theorem c8_witness :
    PPS.runTokens false none (([';'], 1) :: [([' '], 1), (['a'], 1)]) =
      (((([';'], 1) : List Char × Nat) :: [([' '], 1), (['a'], 1)]).map
        (fun u => (u.2, PPS.COMMENT)), false) :=
  c8_comment_containment false none ([';'], 1) [([' '], 1), (['a'], 1)]
    (by decide) (by decide) (by decide)

end EpicCoder
